import Mathlib

/-!
Verification development for the `ApolloEngine` lifecycle orchestration
(`src/engine.ts`).  The embedding models JavaScript strings as `List Char`,
JavaScript numbers that can be `NaN` as `JSNum`, and the `listen` /
`startEngine` / `stop` / `meteorListen` control flow as pure functions that
return the mutated options, the resulting session state and an ordered trace
of the observable events (bind request, launcher invocation, address storage,
deferred callback invocation, deferred error emission, server close).
-/

deriving instance DecidableEq for Except

namespace ApolloEngine

/-- JavaScript string, modelled as a list of characters. -/
abbrev JSString := List Char

/-- A JavaScript number in the positions where the code can produce `NaN`
(the result of `parseInt`). -/
inductive JSNum where
  | int : Int → JSNum
  | nan : JSNum
deriving DecidableEq

/-- The `port` option of `listen`, which is `number | string` in the source. -/
inductive PortValue where
  | num : JSNum → PortValue
  | str : JSString → PortValue
deriving DecidableEq

/-- The `ListenOptions` record of `engine.ts` (Node-API options handed to
`listen`; framework app objects are identified by opaque numeric ids). -/
structure Options where
  port : Option PortValue
  pipePath : Option JSString
  host : Option JSString
  innerHost : Option JSString
  graphqlPaths : Option (List JSString)
  launcherOptions : Option (List JSString)
  httpServer : Option Nat
  expressApp : Option Nat
  connectApp : Option Nat
  koaApp : Option Nat
  restifyServer : Option Nat
deriving DecidableEq

/-- The `{ port, address }` value returned by `httpServer.address()` after the
ephemeral bind. -/
structure InnerAddress where
  address : JSString
  port : Nat
deriving DecidableEq

/-- Modelled from the spec: `ListeningAddress` is declared in `src/types.ts`,
which is not part of the provided sources; the spec describes the proxy
collaborator reporting a concrete `{address, port}` pair. -/
structure ListeningAddress where
  address : JSString
  port : Nat
deriving DecidableEq

/-- An error thrown (or asynchronously emitted) by the engine; only the
message is observable. -/
structure ConfigErr where
  msg : JSString
deriving DecidableEq

/-- A rejection produced by the external launcher collaborator. -/
structure LaunchErr where
  msg : JSString
deriving DecidableEq

/-- Whitespace characters skipped by JavaScript `parseInt`. -/
def isWs (c : Char) : Bool :=
  c = ' ' || c = '\t' || c = '\n' || c = '\r'

/-- Decimal digit test used by the `parseInt` model. -/
def isDigitChar (c : Char) : Bool :=
  '0' ≤ c && c ≤ '9'

/-- Numeric value of a decimal digit character. -/
def charVal (c : Char) : Nat := c.toNat - 48

/-- Accumulate the decimal value of a digit string, most significant first. -/
def foldDigits (l : List Char) : Nat :=
  l.foldl (fun a c => 10 * a + charVal c) 0

/-- The digit-consuming phase of `parseInt(s, 10)`: take the longest digit
run; no digits means `NaN`. -/
def parseUnsigned (r : List Char) (neg : Bool) : JSNum :=
  if r.takeWhile isDigitChar = [] then JSNum.nan
  else if neg then JSNum.int (-(foldDigits (r.takeWhile isDigitChar) : Int))
  else JSNum.int (foldDigits (r.takeWhile isDigitChar))

/-- The sign phase of `parseInt(s, 10)`, applied after whitespace
stripping. -/
def parseSigned : List Char → JSNum
  | [] => JSNum.nan
  | c :: r =>
    if c = '-' then parseUnsigned r true
    else if c = '+' then parseUnsigned r false
    else parseUnsigned (c :: r) false

/-- Model of JavaScript `parseInt(s, 10)`: skip leading whitespace, an
optional sign, then consume the longest run of decimal digits; `NaN` when no
digit is found. -/
def parseIntModel (s : JSString) : JSNum :=
  parseSigned (s.dropWhile isWs)

/-- Decimal digit as a character. -/
def digitToChar : Nat → Char
  | 0 => '0'
  | 1 => '1'
  | 2 => '2'
  | 3 => '3'
  | 4 => '4'
  | 5 => '5'
  | 6 => '6'
  | 7 => '7'
  | 8 => '8'
  | 9 => '9'
  | _ => '?'

/-- Fuelled big-endian decimal digit expansion of a natural number. -/
def natDecAux : Nat → Nat → List Char
  | 0, _ => []
  | fuel + 1, n =>
    if n = 0 then []
    else natDecAux fuel (n / 10) ++ [digitToChar (n % 10)]

/-- The canonical decimal string of a natural number. -/
def natDecimal (n : Nat) : JSString :=
  if n = 0 then ['0'] else natDecAux n n

/-- The canonical decimal string of an integer. -/
def intDecimal (n : Int) : JSString :=
  if n < 0 then '-' :: natDecimal n.natAbs else natDecimal n.toNat

/-- The Windows named-pipe path marker `\\.\pipe\` that `startEngine`
checks with `startsWith` (`winPipePrefix + '\\'` in the source). -/
def winPipe : JSString := "\\\\.\\pipe\\".data

/-- Message of the `startEngine` throw when neither `port` nor `pipePath` is
defined. -/
def eitherMsg : JSString := "Either `port` or `pipePath` must be defined".data

/-- Leading part of the invalid-string-port message of `startEngine`. -/
def badPortMsgPre : JSString :=
  "port must be an integer or a Windows named pipe, not ".data

/-- The invalid-string-port message; it embeds the offending value between
single quotes. -/
def badPortMsg (s : JSString) : JSString :=
  badPortMsgPre ++ [Char.ofNat 39] ++ s ++ [Char.ofNat 39]

/-- Message of the `startEngine` throw when both `port` and `pipePath` end up
defined. -/
def onlyOneMsg : JSString := "Only one of `port `and `pipePath` may be set".data

/-- Message of the synchronous `listen` throw when neither `port` nor
`pipePath` was supplied. -/
def listenNeitherMsg : JSString :=
  "Must provide either the `pipePath` or the `port` that your app will be accessible on.".data

/-- Message of the synchronous `listen` throw when no app source was
supplied. -/
def noAppMsg : JSString :=
  "Must provide \"httpServer\", \"expressApp\", \"connectApp\", \"koaApp\", or \"restifyServer\"".data

/-- Message of the synchronous `listen` throw when several app sources were
supplied. -/
def multiAppMsg : JSString :=
  "Must only provide one of \"httpServer\", \"expressApp\", \"connectApp\", \"koaApp\", and \"restifyServer\"".data

/-- The default graphql path `/graphql`. -/
def defaultGraphqlPath : JSString := "/graphql".data

/-- The default inner host `127.0.0.1`. -/
def defaultInnerHost : JSString := "127.0.0.1".data

/-- `options.innerHost || '127.0.0.1'` (empty strings are falsy). -/
def innerHostOr (o : Options) : JSString :=
  match o.innerHost with
  | some s => if s = [] then defaultInnerHost else s
  | none => defaultInnerHost

/-- The `defaults` payload handed to the launcher (`-defaults=` argument of
`startEngine`). -/
structure HandshakePayload where
  frontendHost : Option JSString
  frontendPort : Option PortValue
  frontendPipePath : Option JSString
  graphqlPaths : List JSString
  originUrl : JSString
  useFrontendPathForDefaultOrigin : Bool
deriving DecidableEq

/-- `options.port || undefined`: a port value survives only if truthy
(nonzero number, non-`NaN`, nonempty string). -/
def portOrUndef : Option PortValue → Option PortValue
  | some (.num (.int n)) => if n = 0 then none else some (.num (.int n))
  | some (.num .nan) => none
  | some (.str s) => if s = [] then none else some (.str s)
  | none => none

/-- `options.pipePath || undefined`: empty strings are falsy. -/
def pipeOrUndef : Option JSString → Option JSString
  | some s => if s = [] then none else some s
  | none => none

/-- Modelled from the spec: `joinHostPort` lives in `src/launcher.ts`, which
is not part of the provided sources; the spec states the origin URL is always
derived as `"http://" + address + ":" + port`. -/
def joinHostPort (address : JSString) (port : Nat) : JSString :=
  address ++ [':'] ++ natDecimal port

/-- The construction of the `defaults` object in `startEngine` (lines
246-257), evaluated on the already-normalized options. -/
def buildPayload (ia : InnerAddress) (o : Options) : HandshakePayload :=
  { frontendHost := o.host
    frontendPort := portOrUndef o.port
    frontendPipePath := pipeOrUndef o.pipePath
    graphqlPaths := o.graphqlPaths.getD [defaultGraphqlPath]
    originUrl := "http://".data ++ joinHostPort ia.address ia.port
    useFrontendPathForDefaultOrigin := true }

/-- The `startEngine` guard at lines 243-245: after port normalization, both
`pipePath` and `port` being defined is an error. -/
def checkBoth (o : Options) : Options × Option ConfigErr :=
  if o.pipePath ≠ none ∧ o.port ≠ none then (o, some ⟨onlyOneMsg⟩)
  else (o, none)

/-- The validation and in-place normalization of `options` performed by
`startEngine` (lines 224-245): missing port and pipe is an error; a string
port is overwritten with its `parseInt` value; a `NaN` parse re-interprets
the string as a Windows pipe path when it starts with `\\.\pipe\` and fails
otherwise; finally both being set is an error.  Returns the mutated options
together with the error, if any. -/
def normalizeOptions (o : Options) : Options × Option ConfigErr :=
  if o.port = none ∧ o.pipePath = none then (o, some ⟨eitherMsg⟩)
  else
    match o.port with
    | some (.str s) =>
      match parseIntModel s with
      | .nan =>
        if List.isPrefixOf winPipe s then
          checkBoth { o with pipePath := some s, port := none }
        else ({ o with port := some (.num .nan) }, some ⟨badPortMsg s⟩)
      | .int n => checkBoth { o with port := some (.num (.int n)) }
    | _ => checkBoth o

/-- The full body of `startEngine` up to the launcher invocation: normalize
the options in place, then build the handshake payload from the normalized
options.  Returns the mutated options and either the error that makes the
returned promise reject or the payload handed to `launcher.start`. -/
def startEngineModel (ia : InnerAddress) (o : Options) :
    Options × Except ConfigErr HandshakePayload :=
  match normalizeOptions o with
  | (o2, some err) => (o2, .error err)
  | (o2, none) => (o2, .ok (buildPayload ia o2))

/-- The canonical http server selected by `listen`: either the user-supplied
server, a fresh `http.Server` wrapping one of the framework apps, or the
inner server of a restify server. -/
inductive CanonicalServer where
  | given : Nat → CanonicalServer
  | fromExpress : Nat → CanonicalServer
  | fromConnect : Nat → CanonicalServer
  | fromKoa : Nat → CanonicalServer
  | restifyInner : Nat → CanonicalServer
deriving DecidableEq

/-- How many of the five mutually exclusive app sources were supplied
(`appsProvided` in `listen`). -/
def appCount (o : Options) : Nat :=
  o.httpServer.isSome.toNat + o.expressApp.isSome.toNat +
    o.connectApp.isSome.toNat + o.koaApp.isSome.toNat +
    o.restifyServer.isSome.toNat

/-- The sequence of `if` statements of `listen` (lines 70-89) that assigns
the local `httpServer`; a later option overwrites an earlier one. -/
def selectServer (o : Options) : Option CanonicalServer :=
  let s : Option CanonicalServer := none
  let s := match o.httpServer with | some h => some (.given h) | none => s
  let s := match o.expressApp with | some a => some (.fromExpress a) | none => s
  let s := match o.connectApp with | some a => some (.fromConnect a) | none => s
  let s := match o.koaApp with | some a => some (.fromKoa a) | none => s
  let s := match o.restifyServer with | some r => some (.restifyInner r) | none => s
  s

/-- The mutable fields of an `ApolloEngine` instance observed by the claims:
the stored http server handle and `engineListeningAddress`. -/
structure EngineState where
  httpServer : Option CanonicalServer
  engineListeningAddress : Option ListeningAddress
deriving DecidableEq

/-- Observable events of the listen and stop flows, in program order.  The
`Bool` on callback invocation and error emission records whether the action
was scheduled on a fresh turn through `process.nextTick`. -/
inductive Event where
  | bindRequested : JSString → Event
  | bindCompleted : InnerAddress → Event
  | launcherStartInvoked : HandshakePayload → Event
  | addressStored : ListeningAddress → Event
  | callbackInvoked : Bool → Event
  | errorEmitted : Bool → JSString → Event
  | launcherStopInvoked : Event
  | serverClosed : Event
deriving DecidableEq

/-- Result of a `listen` call that passed the synchronous phase: the final
engine state, the ordered event trace of the asynchronous phase, and the
(possibly mutated) caller options object. -/
structure ListenOutcome where
  state : EngineState
  events : List Event
  opts : Options
deriving DecidableEq

/-- True exactly on completion-callback invocation events. -/
def isCallbackEvent : Event → Bool
  | .callbackInvoked _ => true
  | _ => false

/-- True exactly on emitted error events. -/
def isErrorEvent : Event → Bool
  | .errorEmitted _ _ => true
  | _ => false

/-- The `listen` method (lines 62-126).  The synchronous phase throws
(`Except.error`) when neither `port` nor `pipePath` was given or when zero or
several app sources were given; otherwise the server handle is stored and the
ephemeral bind is requested.  The asynchronous continuation is evaluated
against the supplied collaborator outcomes: `bindOutcome` is the address the
OS reports (`none` when the bind never completes), `startOutcome` is the
launcher's start result.  On normalization failure or launcher rejection the
error is emitted on a fresh turn; on success the reported address is stored
and then, when a callback was supplied, it is invoked on a fresh turn. -/
def listenModel (s0 : EngineState) (o : Options) (hasCallback : Bool)
    (bindOutcome : Option InnerAddress)
    (startOutcome : Except LaunchErr ListeningAddress) :
    Except ConfigErr ListenOutcome :=
  if o.port = none ∧ o.pipePath = none then .error ⟨listenNeitherMsg⟩
  else if appCount o = 0 then .error ⟨noAppMsg⟩
  else if 1 < appCount o then .error ⟨multiAppMsg⟩
  else
    let s1 : EngineState := ⟨selectServer o, s0.engineListeningAddress⟩
    match bindOutcome with
    | none => .ok ⟨s1, [.bindRequested (innerHostOr o)], o⟩
    | some ia =>
      match startEngineModel ia o with
      | (o2, .error e) =>
        .ok ⟨s1,
             [.bindRequested (innerHostOr o), .bindCompleted ia,
              .errorEmitted true e.msg], o2⟩
      | (o2, .ok payload) =>
        match startOutcome with
        | .error le =>
          .ok ⟨s1,
               [.bindRequested (innerHostOr o), .bindCompleted ia,
                .launcherStartInvoked payload, .errorEmitted true le.msg], o2⟩
        | .ok addr =>
          .ok ⟨⟨s1.httpServer, some addr⟩,
               [.bindRequested (innerHostOr o), .bindCompleted ia,
                .launcherStartInvoked payload, .addressStored addr]
                 ++ (if hasCallback then [.callbackInvoked true] else []),
               o2⟩

/-- The `stop` method (lines 129-134): `launcher.stop()` is awaited first; if
a server handle is stored it is closed and cleared (`engineListeningAddress`
is left untouched); with no stored handle the `close` call on `null` raises,
modelled as `none`. -/
def stopModel (s : EngineState) : List Event × Option EngineState :=
  match s.httpServer with
  | some _ =>
    ([Event.launcherStopInvoked, Event.serverClosed],
     some ⟨none, s.engineListeningAddress⟩)
  | none => ([Event.launcherStopInvoked], none)

/-- The two possible values of the `webApp.httpServer.listen` slot in the
legacy Meteor shim: the framework's original method, or the one-shot
polyfill installed by `meteorListen`. -/
inductive ListenSlot where
  | original : ListenSlot
  | patched : ListenSlot
deriving DecidableEq

/-- Observable steps of one invocation of the (possibly patched) `listen`
slot. -/
inductive MeteorStep where
  | slotAssigned : ListenSlot → MeteorStep
  | polyfillForwarded : MeteorStep
  | originalCalled : MeteorStep
deriving DecidableEq

/-- One invocation of the current `listen` slot.  The patched function body
(lines 186-192) first writes the original method back into the slot and then
forwards to the listen polyfill; the original method just runs. -/
def invokeOnce : ListenSlot → ListenSlot × List MeteorStep
  | .patched => (.original, [.slotAssigned .original, .polyfillForwarded])
  | .original => (.original, [.originalCalled])

/-- A sequence of `n` invocations of the `listen` slot, collecting each
invocation's step trace. -/
def invokeMany : ListenSlot → Nat → ListenSlot × List (List MeteorStep)
  | sl, 0 => (sl, [])
  | sl, n + 1 =>
    let r := invokeOnce sl
    let rest := invokeMany r.1 n
    (rest.1, r.2 :: rest.2)

/-- The effect of `meteorListen` on the `listen` slot: with the Meteor 1.6.2
`startListening` hook the slot is untouched; on the legacy path the slot is
replaced by the one-shot polyfill wrapper. -/
def meteorInstall (hasStartListening : Bool) (slot0 : ListenSlot) : ListenSlot :=
  if hasStartListening then slot0 else ListenSlot.patched

/-- A concrete ephemeral bind result used by witnesses. -/
def exInner : InnerAddress := ⟨"127.0.0.1".data, 3456⟩

/-- A concrete public address reported by the proxy collaborator. -/
def exAddr : ListeningAddress := ⟨"1.2.3.4".data, 9000⟩

/-- The engine state right after construction. -/
def exState : EngineState := ⟨none, none⟩

/-- Empty listen options. -/
def baseOpts : Options :=
  ⟨none, none, none, none, none, none, none, none, none, none, none⟩

/-- Options supplying both a numeric port and a pipe path. -/
def exBothOpts : Options :=
  { baseOpts with
    port := some (.num (.int 3000)),
    pipePath := some "\\\\.\\pipe\\apollo".data,
    httpServer := some 7 }

/-- Options whose string port is neither numeric nor pipe-shaped. -/
def exAbcOpts : Options :=
  { baseOpts with port := some (.str "abc".data), httpServer := some 7 }

/-- Options with an integer port of `0`. -/
def exZeroOpts : Options :=
  { baseOpts with port := some (.num (.int 0)), httpServer := some 7 }

/-- Options supplying a host together with a pipe path. -/
def exPipeHostOpts : Options :=
  { baseOpts with
    pipePath := some "\\\\.\\pipe\\apollo".data,
    host := some "example.com".data,
    httpServer := some 7 }

/-- Well-formed options: one numeric port, one server source. -/
def exOkOpts : Options :=
  { baseOpts with port := some (.num (.int 3000)), httpServer := some 7 }

/-- Well-formed options with a numeric string port. -/
def exStrOpts : Options :=
  { baseOpts with port := some (.str "8080".data), httpServer := some 7 }

/-- Options with a port but no server source. -/
def exNoAppOpts : Options := { baseOpts with port := some (.num (.int 3000)) }

/-- Options with two server sources. -/
def exTwoAppOpts : Options :=
  { baseOpts with
    port := some (.num (.int 3000)), httpServer := some 7, expressApp := some 8 }

/-- A live engine state: server handle stored and a public address set. -/
def exLiveState : EngineState := ⟨some (.given 7), some exAddr⟩

/-- A concrete launcher rejection. -/
def exLaunchErr : LaunchErr := ⟨"engineproxy failed to start".data⟩

/-- `takeWhile` keeps a list all of whose elements satisfy the predicate. -/
theorem takeWhile_all {α : Type} {p : α → Bool} :
    ∀ {l : List α}, (∀ a ∈ l, p a = true) → l.takeWhile p = l
  | [], _ => rfl
  | a :: t, h => by
    have ha := h a (List.mem_cons_self a t)
    have ht := takeWhile_all (fun b hb => h b (List.mem_cons_of_mem a hb))
    simp [List.takeWhile_cons, ha, ht]

/-- `dropWhile` keeps a list none of whose elements satisfy the predicate. -/
theorem dropWhile_all {α : Type} {p : α → Bool} :
    ∀ {l : List α}, (∀ a ∈ l, p a = false) → l.dropWhile p = l
  | [], _ => rfl
  | a :: t, h => by
    have ha := h a (List.mem_cons_self a t)
    simp [List.dropWhile_cons, ha]

/-- Characters produced by `digitToChar` on an actual digit are decimal
digits, not whitespace and not sign characters, and `charVal` inverts the
map. -/
theorem digitToChar_props {d : Nat} (h : d < 10) :
    isDigitChar (digitToChar d) = true ∧ isWs (digitToChar d) = false ∧
      digitToChar d ≠ '-' ∧ digitToChar d ≠ '+' ∧ charVal (digitToChar d) = d := by
  interval_cases d <;> decide

/-- Every character of `natDecAux` is the image of a digit. -/
theorem natDecAux_mem :
    ∀ (fuel n : Nat), ∀ c ∈ natDecAux fuel n, ∃ d, d < 10 ∧ c = digitToChar d
  | 0, n => by intro c hc; simp [natDecAux] at hc
  | fuel + 1, n => by
    intro c hc
    by_cases hn : n = 0
    · simp [natDecAux, hn] at hc
    · rw [natDecAux, if_neg hn] at hc
      rcases List.mem_append.mp hc with h | h
      · exact natDecAux_mem fuel (n / 10) c h
      · refine ⟨n % 10, Nat.mod_lt _ (by norm_num), ?_⟩
        simpa using h

/-- Value of the digit fold over a fuelled decimal expansion. -/
theorem foldl_natDecAux :
    ∀ (fuel n a : Nat), n ≤ fuel →
      (natDecAux fuel n).foldl (fun x c => 10 * x + charVal c) a =
        a * 10 ^ (natDecAux fuel n).length + n
  | 0, n, a, h => by
    have hn : n = 0 := Nat.le_zero.mp h
    subst hn
    simp [natDecAux]
  | fuel + 1, n, a, h => by
    by_cases hn : n = 0
    · subst hn; simp [natDecAux]
    · have hdiv : n / 10 ≤ fuel := by omega
      have ih := foldl_natDecAux fuel (n / 10) a hdiv
      have hmod : n % 10 < 10 := Nat.mod_lt _ (by norm_num)
      have hval := (digitToChar_props hmod).2.2.2.2
      rw [natDecAux, if_neg hn, List.foldl_append, List.length_append]
      simp only [List.foldl_cons, List.foldl_nil, List.length_singleton]
      rw [ih, hval, pow_succ]
      calc 10 * (a * 10 ^ (natDecAux fuel (n / 10)).length + n / 10) + n % 10
          = a * (10 ^ (natDecAux fuel (n / 10)).length * 10)
              + (10 * (n / 10) + n % 10) := by ring
        _ = a * (10 ^ (natDecAux fuel (n / 10)).length * 10) + n := by
              rw [Nat.div_add_mod]

/-- The digit fold inverts the decimal printer. -/
theorem foldDigits_natDecimal (n : Nat) : foldDigits (natDecimal n) = n := by
  by_cases hn : n = 0
  · subst hn; decide
  · rw [natDecimal, if_neg hn]
    have := foldl_natDecAux n n 0 (le_refl n)
    simpa [foldDigits] using this

/-- Every character of a printed natural number is a digit character. -/
theorem natDecimal_mem (n : Nat) :
    ∀ c ∈ natDecimal n,
      isDigitChar c = true ∧ isWs c = false ∧ c ≠ '-' ∧ c ≠ '+' := by
  intro c hc
  rw [natDecimal] at hc
  by_cases hn : n = 0
  · rw [if_pos hn] at hc
    simp at hc
    subst hc; decide
  · rw [if_neg hn] at hc
    obtain ⟨d, hd, rfl⟩ := natDecAux_mem n n c hc
    have h := digitToChar_props hd
    exact ⟨h.1, h.2.1, h.2.2.1, h.2.2.2.1⟩

/-- The decimal printer never yields the empty string. -/
theorem natDecimal_ne_nil (n : Nat) : natDecimal n ≠ [] := by
  rw [natDecimal]
  by_cases hn : n = 0
  · simp [hn]
  · rw [if_neg hn]
    obtain ⟨m, rfl⟩ := Nat.exists_eq_succ_of_ne_zero hn
    rw [natDecAux, if_neg hn]
    simp

/-- `parseUnsigned` inverts the decimal printer. -/
theorem parseUnsigned_natDecimal (m : Nat) (neg : Bool) :
    parseUnsigned (natDecimal m) neg =
      JSNum.int (if neg then -(m : Int) else (m : Int)) := by
  rw [parseUnsigned,
    takeWhile_all (fun c hc => (natDecimal_mem m c hc).1),
    if_neg (natDecimal_ne_nil m), foldDigits_natDecimal]
  cases neg <;> simp

/-- `parseInt` inverts the decimal printer on natural numbers. -/
theorem parseIntModel_natDecimal (m : Nat) :
    parseIntModel (natDecimal m) = JSNum.int m := by
  obtain ⟨c, r, hcr⟩ := List.exists_cons_of_ne_nil (natDecimal_ne_nil m)
  have hc := natDecimal_mem m c (by rw [hcr]; exact List.mem_cons_self c r)
  have hdrop : (natDecimal m).dropWhile isWs = natDecimal m :=
    dropWhile_all (fun x hx => (natDecimal_mem m x hx).2.1)
  have hstep : parseIntModel (natDecimal m) = parseUnsigned (natDecimal m) false := by
    rw [parseIntModel, hdrop, hcr, parseSigned,
      if_neg hc.2.2.1, if_neg hc.2.2.2]
  rw [hstep, parseUnsigned_natDecimal]
  simp

/-- `parseInt` inverts the decimal printer on integers. -/
theorem parseIntModel_intDecimal (n : Int) :
    parseIntModel (intDecimal n) = JSNum.int n := by
  rw [intDecimal]
  by_cases hn : n < 0
  · rw [if_pos hn, parseIntModel]
    have hdrop :
        (('-') :: natDecimal n.natAbs).dropWhile isWs =
          '-' :: natDecimal n.natAbs := by
      rw [List.dropWhile_cons]
      simp [isWs]
    rw [hdrop, parseSigned, if_pos rfl, parseUnsigned_natDecimal, if_pos rfl,
      Int.natCast_natAbs, abs_of_neg hn, neg_neg]
  · rw [if_neg hn, parseIntModel_natDecimal]
    simp only [JSNum.int.injEq]
    omega

/-- The first projection of `checkBoth` is always the unmodified input. -/
theorem checkBoth_fst (o : Options) : (checkBoth o).1 = o := by
  rw [checkBoth]
  split <;> rfl

/-- The branch structure of `normalizeOptions`: exactly one of the five
control-flow paths of `startEngine`'s validation applies. -/
theorem normalizeOptions_cases (o : Options) :
    (o.port = none ∧ o.pipePath = none ∧
       normalizeOptions o = (o, some ⟨eitherMsg⟩)) ∨
    (∃ s, o.port = some (.str s) ∧ parseIntModel s = JSNum.nan ∧
       List.isPrefixOf winPipe s = true ∧
       normalizeOptions o = checkBoth { o with pipePath := some s, port := none }) ∨
    (∃ s, o.port = some (.str s) ∧ parseIntModel s = JSNum.nan ∧
       List.isPrefixOf winPipe s = false ∧
       normalizeOptions o =
         ({ o with port := some (.num .nan) }, some ⟨badPortMsg s⟩)) ∨
    (∃ s n, o.port = some (.str s) ∧ parseIntModel s = JSNum.int n ∧
       normalizeOptions o = checkBoth { o with port := some (.num (.int n)) }) ∨
    (¬(o.port = none ∧ o.pipePath = none) ∧ (∀ s, o.port ≠ some (.str s)) ∧
       normalizeOptions o = checkBoth o) := by
  by_cases h0 : o.port = none ∧ o.pipePath = none
  · exact Or.inl ⟨h0.1, h0.2, by rw [normalizeOptions, if_pos h0]⟩
  · cases hp : o.port with
    | none =>
      rw [hp] at h0
      have hpp : ¬o.pipePath = none := by simpa using h0
      refine Or.inr (Or.inr (Or.inr (Or.inr ⟨h0, ?_, ?_⟩)))
      · intro s; simp
      · simp [normalizeOptions, hp, hpp]
    | some pv =>
      cases pv with
      | num v =>
        rw [hp] at h0
        refine Or.inr (Or.inr (Or.inr (Or.inr ⟨h0, ?_, ?_⟩)))
        · intro s; simp
        · simp [normalizeOptions, hp]
      | str s =>
        cases hparse : parseIntModel s with
        | int n =>
          refine Or.inr (Or.inr (Or.inr (Or.inl ⟨s, n, rfl, hparse, ?_⟩)))
          simp [normalizeOptions, hp, hparse]
        | nan =>
          by_cases hpfx : List.isPrefixOf winPipe s = true
          · have hp2 : winPipe <+: s := by simpa using hpfx
            refine Or.inr (Or.inl ⟨s, rfl, hparse, hpfx, ?_⟩)
            simp [normalizeOptions, hp, hparse, hpfx, hp2]
          · have hpfx2 : List.isPrefixOf winPipe s = false := by
              cases hb : List.isPrefixOf winPipe s
              · rfl
              · exact absurd hb hpfx
            have hp2 : ¬winPipe <+: s := by simpa using hpfx
            refine Or.inr (Or.inr (Or.inl ⟨s, rfl, hparse, hpfx2, ?_⟩))
            simp [normalizeOptions, hp, hparse, hpfx2, hp2]

/-- `normalizeOptions` only ever touches the `port` and `pipePath` fields. -/
theorem normalizeOptions_frame (o : Options) :
    (normalizeOptions o).1.host = o.host ∧
    (normalizeOptions o).1.innerHost = o.innerHost ∧
    (normalizeOptions o).1.graphqlPaths = o.graphqlPaths ∧
    (normalizeOptions o).1.launcherOptions = o.launcherOptions ∧
    (normalizeOptions o).1.httpServer = o.httpServer ∧
    (normalizeOptions o).1.expressApp = o.expressApp ∧
    (normalizeOptions o).1.connectApp = o.connectApp ∧
    (normalizeOptions o).1.koaApp = o.koaApp ∧
    (normalizeOptions o).1.restifyServer = o.restifyServer := by
  rcases normalizeOptions_cases o with
    ⟨_, _, heq⟩ | ⟨s, _, _, _, heq⟩ | ⟨s, _, _, _, heq⟩ |
      ⟨s, n, _, _, heq⟩ | ⟨_, _, heq⟩ <;>
    rw [heq] <;> (try rw [checkBoth_fst]) <;>
    exact ⟨rfl, rfl, rfl, rfl, rfl, rfl, rfl, rfl, rfl⟩

/-- When the both-set guard passes, nothing changed and nothing fails. -/
theorem checkBoth_ok (w : Options) (h : (checkBoth w).2 = none) :
    (checkBoth w).1.pipePath = none ∨ (checkBoth w).1.port = none := by
  by_cases hc : w.pipePath ≠ none ∧ w.port ≠ none
  · rw [checkBoth, if_pos hc] at h
    simp at h
  · rw [checkBoth_fst]
    rw [not_and_or] at hc
    simpa using hc

/-- Success of `normalizeOptions` guarantees `port` and `pipePath` are not
both set afterwards. -/
theorem normalizeOptions_ok_not_both (o : Options)
    (h : (normalizeOptions o).2 = none) :
    (normalizeOptions o).1.pipePath = none ∨
      (normalizeOptions o).1.port = none := by
  rcases normalizeOptions_cases o with
    ⟨_, _, heq⟩ | ⟨s, _, _, _, heq⟩ | ⟨s, _, _, _, heq⟩ |
      ⟨s, n, _, _, heq⟩ | ⟨_, _, heq⟩ <;> rw [heq] at h ⊢
  · simp at h
  · exact checkBoth_ok _ h
  · simp at h
  · exact checkBoth_ok _ h
  · exact checkBoth_ok _ h

/-- The first projection of `startEngineModel` is the normalized options. -/
theorem startEngineModel_fst (ia : InnerAddress) (o : Options) :
    (startEngineModel ia o).1 = (normalizeOptions o).1 := by
  rw [startEngineModel]
  split <;> rename_i heq <;> rw [heq]

/-- A successful `startEngineModel` run means normalization succeeded and the
payload is built from the normalized options. -/
theorem startEngineModel_ok {ia : InnerAddress} {o o2 : Options}
    {p : HandshakePayload} (h : startEngineModel ia o = (o2, .ok p)) :
    normalizeOptions o = (o2, none) ∧ p = buildPayload ia o2 := by
  rw [startEngineModel] at h
  split at h
  · rename_i o3 err heq
    simp at h
  · rename_i o3 heq
    have h2 : o3 = o2 ∧ buildPayload ia o3 = p := by
      simpa using h
    obtain ⟨rfl, rfl⟩ := h2
    exact ⟨heq, rfl⟩

/-- The three normalization outcomes for a string-valued port. -/
theorem normalizeOptions_str (o : Options) (s : JSString)
    (hs : o.port = some (.str s)) :
    (parseIntModel s = JSNum.nan ∧ List.isPrefixOf winPipe s = true ∧
       normalizeOptions o = checkBoth { o with pipePath := some s, port := none }) ∨
    (parseIntModel s = JSNum.nan ∧ List.isPrefixOf winPipe s = false ∧
       normalizeOptions o =
         ({ o with port := some (.num .nan) }, some ⟨badPortMsg s⟩)) ∨
    (∃ n, parseIntModel s = JSNum.int n ∧
       normalizeOptions o = checkBoth { o with port := some (.num (.int n)) }) := by
  rcases normalizeOptions_cases o with
    ⟨h1, _, _⟩ | ⟨t, ht, htn, htp, heq⟩ | ⟨t, ht, htn, htp, heq⟩ |
      ⟨t, m, ht, htp, heq⟩ | ⟨_, hnostr, _⟩
  · rw [hs] at h1
    exact absurd h1 (by simp)
  · obtain rfl : t = s := by simpa using ht.symm.trans hs
    exact Or.inl ⟨htn, htp, heq⟩
  · obtain rfl : t = s := by simpa using ht.symm.trans hs
    exact Or.inr (Or.inl ⟨htn, htp, heq⟩)
  · obtain rfl : t = s := by simpa using ht.symm.trans hs
    exact Or.inr (Or.inr ⟨m, htp, heq⟩)
  · exact absurd hs (hnostr s)

/-- Normalization of a port that is absent or already numeric goes straight
to the both-set guard. -/
theorem normalizeOptions_nonstr (o : Options)
    (hne : ¬(o.port = none ∧ o.pipePath = none))
    (h : ∀ s, o.port ≠ some (.str s)) :
    normalizeOptions o = checkBoth o := by
  rcases normalizeOptions_cases o with
    ⟨h1, h2, _⟩ | ⟨t, ht, _, _, _⟩ | ⟨t, ht, _, _, _⟩ |
      ⟨t, m, ht, _, _⟩ | ⟨_, _, heq⟩
  · exact absurd ⟨h1, h2⟩ hne
  · exact absurd ht (h t)
  · exact absurd ht (h t)
  · exact absurd ht (h t)
  · exact heq

/-- At least one supplied app source guarantees a canonical server gets
selected. -/
theorem selectServer_isSome (o : Options) (h : 1 ≤ appCount o) :
    (selectServer o).isSome = true := by
  rcases o with ⟨p, pp, ho, ih, gq, lo, hs, ea, ca, ka, rs⟩
  cases hs <;> cases ea <;> cases ca <;> cases ka <;> cases rs <;>
    simp_all [appCount, selectServer]

/-- Claim C1, counterexample: from a live state holding a stored public
address, `stop()` resolves with `engineListeningAddress` still set to that
address, falsifying the claim that `currentPublicAddress` is cleared when
`stop()` resolves. -/
theorem stop_keeps_address_cex :
    (stopModel exLiveState).2 = some ⟨none, some exAddr⟩ := by decide

/-- Claim C1, amended: for every session in the Live state (server handle
stored), `stop()` first awaits the proxy collaborator's stop, then closes
the embedding http server and clears the stored server handle; the stored
`engineListeningAddress` is left unchanged rather than cleared. -/
theorem stop_from_live (s : EngineState) (h : s.httpServer.isSome = true) :
    stopModel s =
      ([Event.launcherStopInvoked, Event.serverClosed],
       some ⟨none, s.engineListeningAddress⟩) := by
  rcases hs : s.httpServer with _ | c
  · rw [hs] at h
    simp at h
  · simp [stopModel, hs]

/-- Claim C1, witness: the amended stop transition evaluated on a concrete
live state. -/
theorem stop_from_live_wit :
    stopModel ⟨some (.given 1), some exAddr⟩ =
      ([Event.launcherStopInvoked, Event.serverClosed],
       some ⟨none, some exAddr⟩) :=
  stop_from_live ⟨some (.given 1), some exAddr⟩ rfl

/-- Claim C2, counterexample: with both `port` and `pipePath` supplied (one
app source), `listen` does not throw synchronously; the call succeeds, binds,
and the conflict surfaces only as a deferred asynchronous error event. -/
theorem listen_both_cex :
    listenModel exState exBothOpts true (some exInner) (.ok exAddr) =
      .ok ⟨⟨some (.given 7), none⟩,
           [.bindRequested defaultInnerHost, .bindCompleted exInner,
            .errorEmitted true onlyOneMsg], exBothOpts⟩ := by decide

/-- Claim C2, amended: supplying neither `port` nor `pipePath` makes
`listen` throw a `ConfigError` synchronously; supplying both (numeric port,
one app source) does not throw synchronously — after the ephemeral bind the
conflict is emitted as a single asynchronous error event on a fresh turn. -/
theorem listen_neither_sync_both_async (s0 : EngineState) (o : Options)
    (cb : Bool) (bo : Option InnerAddress)
    (so : Except LaunchErr ListeningAddress) (ia : InnerAddress) :
    (o.port = none → o.pipePath = none →
       listenModel s0 o cb bo so = .error ⟨listenNeitherMsg⟩) ∧
    (∀ v ps, o.port = some (.num v) → o.pipePath = some ps → appCount o = 1 →
       listenModel s0 o cb (some ia) so =
         .ok ⟨⟨selectServer o, s0.engineListeningAddress⟩,
              [.bindRequested (innerHostOr o), .bindCompleted ia,
               .errorEmitted true onlyOneMsg], o⟩) := by
  constructor
  · intro hp hpp
    simp [listenModel, hp, hpp]
  · intro v ps hp hpp hc
    have hne : ¬(o.port = none ∧ o.pipePath = none) := by simp [hp]
    have hnorm : normalizeOptions o = (o, some ⟨onlyOneMsg⟩) := by
      rw [normalizeOptions_nonstr o hne (by intro s; rw [hp]; simp),
        checkBoth, if_pos ⟨by simp [hpp], by simp [hp]⟩]
    have hse : startEngineModel ia o = (o, .error ⟨onlyOneMsg⟩) := by
      rw [startEngineModel, hnorm]
    simp [listenModel, hne, hc, hse]

/-- Claim C2, witness: the amended theorem instantiated at concrete
both-set options. -/
theorem listen_neither_sync_both_async_wit :
    listenModel exState exBothOpts false (some exInner) (.ok exAddr) =
      .ok ⟨⟨some (.given 7), none⟩,
           [.bindRequested defaultInnerHost, .bindCompleted exInner,
            .errorEmitted true onlyOneMsg], exBothOpts⟩ :=
  (listen_neither_sync_both_async exState exBothOpts false (some exInner)
    (.ok exAddr) exInner).2 (.int 3000) ("\\\\.\\pipe\\apollo".data) rfl rfl rfl

/-- Claim C3, counterexample: the string port `"abc"` (unparseable, not
pipe-shaped) does not make `listen` throw synchronously: the call succeeds
and the `ConfigError` naming `abc` arrives as a deferred asynchronous error
event after the bind. -/
theorem listen_badstr_cex :
    listenModel exState exAbcOpts true (some exInner) (.ok exAddr) =
      .ok ⟨⟨some (.given 7), none⟩,
           [.bindRequested defaultInnerHost, .bindCompleted exInner,
            .errorEmitted true (badPortMsg "abc".data)],
           { exAbcOpts with port := some (.num .nan) }⟩ := by decide

/-- Claim C3, amended: a string port that `parseInt` cannot parse and that
does not begin with the `\\.\pipe\` marker makes `listen` fail with an
asynchronous error event whose message contains the offending string (no
synchronous throw); when the string does begin with the marker it is
re-interpreted as the `pipePath` and `port` becomes unset. -/
theorem listen_string_port_behavior (s0 : EngineState) (o : Options)
    (cb : Bool) (so : Except LaunchErr ListeningAddress) (ia : InnerAddress)
    (s : JSString) (hs : o.port = some (.str s))
    (hnan : parseIntModel s = JSNum.nan) (hc : appCount o = 1) :
    (List.isPrefixOf winPipe s = false →
       listenModel s0 o cb (some ia) so =
         .ok ⟨⟨selectServer o, s0.engineListeningAddress⟩,
              [.bindRequested (innerHostOr o), .bindCompleted ia,
               .errorEmitted true (badPortMsg s)],
              { o with port := some (.num .nan) }⟩ ∧
       s <:+: badPortMsg s) ∧
    (List.isPrefixOf winPipe s = true →
       (startEngineModel ia o).1.port = none ∧
       (startEngineModel ia o).1.pipePath = some s) := by
  have hne : ¬(o.port = none ∧ o.pipePath = none) := by simp [hs]
  constructor
  · intro hpfx
    rcases normalizeOptions_str o s hs with
      ⟨_, hpt, _⟩ | ⟨_, _, heq⟩ | ⟨m, hm, _⟩
    · exact absurd (hpt.symm.trans hpfx) (by simp)
    · have hse : startEngineModel ia o =
          ({ o with port := some (.num .nan) }, .error ⟨badPortMsg s⟩) := by
        rw [startEngineModel, heq]
      refine ⟨by simp [listenModel, hne, hc, hse], ?_⟩
      exact ⟨badPortMsgPre ++ [Char.ofNat 39], [Char.ofNat 39],
        by simp [badPortMsg]⟩
    · exact absurd (hm.symm.trans hnan) (by simp)
  · intro hpfx
    rcases normalizeOptions_str o s hs with
      ⟨_, _, heq⟩ | ⟨_, hpt, _⟩ | ⟨m, hm, _⟩
    · rw [startEngineModel_fst, heq, checkBoth_fst]
      exact ⟨rfl, rfl⟩
    · exact absurd (hpt.symm.trans hpfx) (by simp)
    · exact absurd (hm.symm.trans hnan) (by simp)

/-- Claim C3, witness: the amended theorem at the concrete string `"abc"`,
exercising the no-pipe branch. -/
theorem listen_string_port_behavior_wit :
    listenModel exState exAbcOpts false (some exInner) (.ok exAddr) =
      .ok ⟨⟨some (.given 7), none⟩,
           [.bindRequested defaultInnerHost, .bindCompleted exInner,
            .errorEmitted true (badPortMsg "abc".data)],
           { exAbcOpts with port := some (.num .nan) }⟩ ∧
    "abc".data <:+: badPortMsg "abc".data :=
  ((listen_string_port_behavior exState exAbcOpts false (.ok exAddr) exInner
    ("abc".data) rfl (by decide) rfl).1 (by decide))

/-- Claim C4, counterexample: an integer port of `0` builds a payload with
neither `frontendPort` nor `frontendPipePath` populated, and a host supplied
together with a pipe path leaves `frontendHost` populated alongside
`frontendPipePath` — both refuting the exactly-one-shape claim. -/
theorem payload_exactly_one_cex :
    (startEngineModel exInner exZeroOpts).2.map
        (fun p => (p.frontendPort, p.frontendPipePath)) = .ok (none, none) ∧
    (startEngineModel exInner exPipeHostOpts).2.map
        (fun p => (p.frontendHost, p.frontendPipePath)) =
      .ok (some "example.com".data, some "\\\\.\\pipe\\apollo".data) := by
  decide

/-- Claim C4, amended: whenever `startEngine` reaches the payload build,
`frontendHost` always mirrors `options.host` (even when a pipe path is in
use), `frontendPort` is the truthiness filter of the normalized port (so
port `0` populates nothing), `frontendPipePath` is the truthiness filter of
the normalized pipe path, and at most one of `frontendPort` /
`frontendPipePath` is populated. -/
theorem payload_frontend_fields (ia : InnerAddress) (o o2 : Options)
    (p : HandshakePayload) (h : startEngineModel ia o = (o2, .ok p)) :
    p.frontendHost = o.host ∧
    p.frontendPort = portOrUndef o2.port ∧
    p.frontendPipePath = pipeOrUndef o2.pipePath ∧
    (p.frontendPort = none ∨ p.frontendPipePath = none) := by
  obtain ⟨hnorm, rfl⟩ := startEngineModel_ok h
  have hfr := normalizeOptions_frame o
  have ho2 : (normalizeOptions o).1 = o2 := by rw [hnorm]
  have hhost : o2.host = o.host := by rw [← ho2]; exact hfr.1
  refine ⟨?_, rfl, rfl, ?_⟩
  · simpa [buildPayload] using hhost
  · have hnb := normalizeOptions_ok_not_both o (by rw [hnorm])
    rw [ho2] at hnb
    rcases hnb with hpp | hpt
    · right
      simp [buildPayload, pipeOrUndef, hpp]
    · left
      simp [buildPayload, portOrUndef, hpt]

/-- Claim C4, witness: the amended payload characterization evaluated on a
concrete well-formed port option. -/
theorem payload_frontend_fields_wit :
    (buildPayload exInner exOkOpts).frontendHost = exOkOpts.host ∧
    (buildPayload exInner exOkOpts).frontendPort = portOrUndef exOkOpts.port ∧
    (buildPayload exInner exOkOpts).frontendPipePath =
      pipeOrUndef exOkOpts.pipePath ∧
    ((buildPayload exInner exOkOpts).frontendPort = none ∨
      (buildPayload exInner exOkOpts).frontendPipePath = none) :=
  payload_frontend_fields exInner exOkOpts exOkOpts
    (buildPayload exInner exOkOpts) rfl

/-- Claim C5 (confirmed): with zero or at least two server sources supplied,
`listen` throws a `ConfigError` synchronously — the call returns an
`Except.error` and the asynchronous phase (bind request included) never
starts, so no socket is opened. -/
theorem listen_app_count_sync_error (s0 : EngineState) (o : Options)
    (cb : Bool) (bo : Option InnerAddress)
    (so : Except LaunchErr ListeningAddress)
    (h : appCount o = 0 ∨ 2 ≤ appCount o) :
    ∃ e, listenModel s0 o cb bo so = .error e := by
  by_cases hnp : o.port = none ∧ o.pipePath = none
  · exact ⟨⟨listenNeitherMsg⟩, by simp [listenModel, hnp]⟩
  · rcases h with h | h
    · exact ⟨⟨noAppMsg⟩, by simp [listenModel, hnp, h]⟩
    · have h0 : ¬appCount o = 0 := by omega
      have h1 : 1 < appCount o := by omega
      exact ⟨⟨multiAppMsg⟩, by simp [listenModel, hnp, h0, h1]⟩

/-- Claim C5, witness: a port-only option set with no app source is rejected
synchronously. -/
theorem listen_app_count_sync_error_wit :
    ∃ e, listenModel exState exNoAppOpts true none (.ok exAddr) = .error e :=
  listen_app_count_sync_error exState exNoAppOpts true none (.ok exAddr)
    (Or.inl rfl)

/-- Claim C6 (confirmed): a port given as the decimal string form of an
integer behaves exactly like the integer: `startEngine` produces the same
mutated options and the same payload result, for all surrounding options. -/
theorem string_port_equals_int_port (ia : InnerAddress) (o : Options)
    (n : Int) :
    startEngineModel ia { o with port := some (.str (intDecimal n)) } =
      startEngineModel ia { o with port := some (.num (.int n)) } := by
  have hnorm :
      normalizeOptions { o with port := some (.str (intDecimal n)) } =
        normalizeOptions { o with port := some (.num (.int n)) } := by
    simp [normalizeOptions, parseIntModel_intDecimal]
  rw [startEngineModel, startEngineModel, hnorm]

/-- Claim C7 (confirmed): on a fully successful listen attempt with a
callback supplied, the trace ends with the proxy-reported address being
stored and then exactly one callback invocation, flagged as running on a
fresh turn; the final state holds the stored address. -/
theorem listen_callback_once (s0 : EngineState) (o o2 : Options)
    (ia : InnerAddress) (addr : ListeningAddress) (payload : HandshakePayload)
    (hne : ¬(o.port = none ∧ o.pipePath = none)) (hc : appCount o = 1)
    (hn : startEngineModel ia o = (o2, .ok payload)) :
    listenModel s0 o true (some ia) (.ok addr) =
      .ok ⟨⟨selectServer o, some addr⟩,
           [.bindRequested (innerHostOr o), .bindCompleted ia,
            .launcherStartInvoked payload, .addressStored addr,
            .callbackInvoked true], o2⟩ ∧
    List.countP isCallbackEvent
        [.bindRequested (innerHostOr o), .bindCompleted ia,
         .launcherStartInvoked payload, .addressStored addr,
         .callbackInvoked true] = 1 := by
  constructor
  · simp [listenModel, hne, hc, hn]
  · simp [List.countP_cons, isCallbackEvent]

/-- Claim C7, witness: the success trace evaluated on concrete well-formed
options. -/
theorem listen_callback_once_wit :
    listenModel exState exOkOpts true (some exInner) (.ok exAddr) =
      .ok ⟨⟨some (.given 7), some exAddr⟩,
           [.bindRequested defaultInnerHost, .bindCompleted exInner,
            .launcherStartInvoked (buildPayload exInner exOkOpts),
            .addressStored exAddr, .callbackInvoked true], exOkOpts⟩ :=
  (listen_callback_once exState exOkOpts exOkOpts exInner exAddr
    (buildPayload exInner exOkOpts) (by decide) rfl rfl).1

/-- Claim C8 (confirmed): when the launcher's start rejects after a
successful ephemeral bind, the callback is never invoked, exactly one error
event is emitted (on a fresh turn), and the embedding server remains stored
and open — no close event occurs. -/
theorem listen_launcher_reject (s0 : EngineState) (o o2 : Options)
    (cb : Bool) (ia : InnerAddress) (le : LaunchErr)
    (payload : HandshakePayload)
    (hne : ¬(o.port = none ∧ o.pipePath = none)) (hc : appCount o = 1)
    (hn : startEngineModel ia o = (o2, .ok payload)) :
    listenModel s0 o cb (some ia) (.error le) =
      .ok ⟨⟨selectServer o, s0.engineListeningAddress⟩,
           [.bindRequested (innerHostOr o), .bindCompleted ia,
            .launcherStartInvoked payload, .errorEmitted true le.msg], o2⟩ ∧
    (selectServer o).isSome = true ∧
    List.countP isErrorEvent
        [.bindRequested (innerHostOr o), .bindCompleted ia,
         .launcherStartInvoked payload, .errorEmitted true le.msg] = 1 ∧
    List.countP isCallbackEvent
        [.bindRequested (innerHostOr o), .bindCompleted ia,
         .launcherStartInvoked payload, .errorEmitted true le.msg] = 0 ∧
    Event.serverClosed ∉
      [Event.bindRequested (innerHostOr o), Event.bindCompleted ia,
       Event.launcherStartInvoked payload, Event.errorEmitted true le.msg] := by
  refine ⟨?_, ?_, ?_, ?_, ?_⟩
  · simp [listenModel, hne, hc, hn]
  · exact selectServer_isSome o (by omega)
  · simp [List.countP_cons, isErrorEvent]
  · simp [List.countP_cons, isCallbackEvent]
  · simp

/-- Claim C8, witness: the launcher-rejection trace evaluated on concrete
well-formed options. -/
theorem listen_launcher_reject_wit :
    listenModel exState exOkOpts true (some exInner) (.error exLaunchErr) =
      .ok ⟨⟨some (.given 7), none⟩,
           [.bindRequested defaultInnerHost, .bindCompleted exInner,
            .launcherStartInvoked (buildPayload exInner exOkOpts),
            .errorEmitted true exLaunchErr.msg], exOkOpts⟩ :=
  (listen_launcher_reject exState exOkOpts exOkOpts true exInner exLaunchErr
    (buildPayload exInner exOkOpts) (by decide) rfl rfl).1

/-- Claim C9 (confirmed): after the legacy Meteor shim installs the one-shot
polyfill, the first invocation of the `listen` slot first restores the
original method into the slot and then forwards to the polyfill, and every
one of the following `n` invocations runs the original method. -/
theorem meteor_legacy_one_shot (n : Nat) :
    invokeMany (meteorInstall false ListenSlot.original) (n + 1) =
      (ListenSlot.original,
       [MeteorStep.slotAssigned ListenSlot.original,
        MeteorStep.polyfillForwarded] ::
         List.replicate n [MeteorStep.originalCalled]) := by
  have h : ∀ m, invokeMany ListenSlot.original m =
      (ListenSlot.original, List.replicate m [MeteorStep.originalCalled]) := by
    intro m
    induction m with
    | zero => rfl
    | succ k ih => simp [invokeMany, invokeOnce, ih, List.replicate_succ]
  simp [meteorInstall, invokeMany, invokeOnce, h]

/-- Claim C10 (confirmed): `startEngine` mutates the caller's options object
only at `port` and `pipePath`: every other field is preserved; a parseable
string port is overwritten with its parsed integer; a pipe-shaped string
moves into `pipePath` with `port` unset; an unparseable non-pipe string
leaves `port` overwritten with the `NaN` parse result; absent or numeric
ports stay untouched. -/
theorem startEngine_mutates_only_port_pipe (ia : InnerAddress)
    (o : Options) :
    ((startEngineModel ia o).1.host = o.host ∧
     (startEngineModel ia o).1.innerHost = o.innerHost ∧
     (startEngineModel ia o).1.graphqlPaths = o.graphqlPaths ∧
     (startEngineModel ia o).1.launcherOptions = o.launcherOptions ∧
     (startEngineModel ia o).1.httpServer = o.httpServer ∧
     (startEngineModel ia o).1.expressApp = o.expressApp ∧
     (startEngineModel ia o).1.connectApp = o.connectApp ∧
     (startEngineModel ia o).1.koaApp = o.koaApp ∧
     (startEngineModel ia o).1.restifyServer = o.restifyServer) ∧
    (∀ s n, o.port = some (.str s) → parseIntModel s = JSNum.int n →
       (startEngineModel ia o).1.port = some (.num (.int n)) ∧
       (startEngineModel ia o).1.pipePath = o.pipePath) ∧
    (∀ s, o.port = some (.str s) → parseIntModel s = JSNum.nan →
       List.isPrefixOf winPipe s = true →
       (startEngineModel ia o).1.port = none ∧
       (startEngineModel ia o).1.pipePath = some s) ∧
    (∀ s, o.port = some (.str s) → parseIntModel s = JSNum.nan →
       List.isPrefixOf winPipe s = false →
       (startEngineModel ia o).1.port = some (.num .nan) ∧
       (startEngineModel ia o).1.pipePath = o.pipePath) ∧
    ((∀ s, o.port ≠ some (.str s)) →
       (startEngineModel ia o).1.port = o.port ∧
       (startEngineModel ia o).1.pipePath = o.pipePath) := by
  rw [startEngineModel_fst]
  refine ⟨normalizeOptions_frame o, ?_, ?_, ?_, ?_⟩
  · intro s n hs hparse
    rcases normalizeOptions_str o s hs with
      ⟨hn1, _, _⟩ | ⟨hn1, _, _⟩ | ⟨m, hm, heq⟩
    · exact absurd (hn1.symm.trans hparse) (by simp)
    · exact absurd (hn1.symm.trans hparse) (by simp)
    · obtain rfl : m = n := by simpa using hm.symm.trans hparse
      rw [heq, checkBoth_fst]
      exact ⟨rfl, rfl⟩
  · intro s hs hparse hpfx
    rcases normalizeOptions_str o s hs with
      ⟨_, _, heq⟩ | ⟨_, hpt, _⟩ | ⟨m, hm, _⟩
    · rw [heq, checkBoth_fst]
      exact ⟨rfl, rfl⟩
    · exact absurd (hpt.symm.trans hpfx) (by simp)
    · exact absurd (hm.symm.trans hparse) (by simp)
  · intro s hs hparse hpfx
    rcases normalizeOptions_str o s hs with
      ⟨_, hpt, _⟩ | ⟨_, _, heq⟩ | ⟨m, hm, _⟩
    · exact absurd (hpt.symm.trans hpfx) (by simp)
    · rw [heq]
      exact ⟨rfl, rfl⟩
    · exact absurd (hm.symm.trans hparse) (by simp)
  · intro hnostr
    by_cases hnp : o.port = none ∧ o.pipePath = none
    · rw [normalizeOptions, if_pos hnp]
      exact ⟨rfl, rfl⟩
    · rw [normalizeOptions_nonstr o hnp hnostr, checkBoth_fst]
      exact ⟨rfl, rfl⟩

/-- Claim C10, witness: the mutation characterization at the concrete string
port `"8080"`, which is overwritten in place with the integer `8080`. -/
theorem startEngine_mutates_only_port_pipe_wit :
    (startEngineModel exInner exStrOpts).1.port =
      some (.num (.int 8080)) ∧
    (startEngineModel exInner exStrOpts).1.pipePath = none :=
  (startEngine_mutates_only_port_pipe exInner exStrOpts).2.1 ("8080".data)
    8080 rfl (by decide)

end ApolloEngine
